import Mathlib

/-!
Shallow embedding of the crawl-orchestration logic of `src/main.ts`
(indeed-scraper): seeding (`enqueueSearch`, `buildUrl`), input validation
defaults, the request handler's list-page path (block detection, no-results
detection, mosaic-JSON and HTML extraction, stealth-block escalation,
duplicate/empty page counting and pagination), and run-level invariants of
the dedup ledger (`seenKeys`) and the global counter (`totalSavedItems`).

Markup parsing and HTTP transport are outside collaborators; a page is
therefore modelled by the data the handler actually reads from it (body
text, title, resolved URL, the `.job_seen_beacon` card fields, and the job
entries recovered from the embedded mosaic JSON payload, if any).
-/

namespace IndeedScraper

/-- JS string truthiness fallback `a || b` for string-valued fields:
the empty string is falsy. -/
def jsOr (a b : String) : String := if a = "" then b else a

/-- JS `a || null` on a string-valued field. -/
def jsOrNull (a : String) : Option String := if a = "" then none else some a

/-- JS `x || null` on a numeric field (0 is falsy, as in `companyRating || null`). -/
def ratingOrNull (v : Option Int) : Option Int :=
  match v with
  | none => none
  | some n => if n = 0 then none else some n

/-- Test that `needle` occurs at the head of `hay` (character-list version of
`String.startsWith`). -/
def charsLead : List Char → List Char → Bool
  | [], _ => true
  | _ :: _, [] => false
  | a :: as, b :: bs => a == b && charsLead as bs

/-- Test that `needle` occurs somewhere inside `hay`: the semantics of JS
`String.prototype.includes`. -/
def charsHas (needle : List Char) : List Char → Bool
  | [] => charsLead needle []
  | c :: rest => charsLead needle (c :: rest) || charsHas needle rest

/-- JS `hay.includes(needle)`, used by the block / no-results
classification in the handler. -/
def strIncludes (hay needle : String) : Bool := charsHas needle.toList hay.toList

/-- JS `s.startsWith(pre)`. -/
def strStarts (s pre : String) : Bool := charsLead pre.toList s.toList

/-- Leftmost match of the regex `jk=([a-zA-Z0-9]+)` from
`fullLink.match(/jk=([a-zA-Z0-9]+)/)`: returns the captured alphanumeric
run, scanning position by position like the JS regex engine. -/
def jkCapture : List Char → Option (List Char)
  | [] => none
  | c :: rest =>
    match c, rest with
    | 'j', 'k' :: '=' :: rest2 =>
      let run := rest2.takeWhile Char.isAlphanum
      if run = [] then jkCapture rest else some run
    | _, _ => jkCapture rest

/-- A URL as the handler manipulates it: a plain base plus ordered query
parameters (the collaborator `new URL(...)` / `searchParams`). -/
structure Url where
  base : String
  params : List (String × String)
deriving DecidableEq, Repr

/-- Model of `url.searchParams.set(k, v)`: replace the value in place if the key is
present, else append the pair. -/
def setParam (u : Url) (k v : String) : Url :=
  if u.params.any (fun p => p.fst = k) then
    { u with params := u.params.map (fun p => if p.fst = k then (k, v) else p) }
  else
    { u with params := u.params ++ [(k, v)] }

/-- Function `buildUrl` from `src/main.ts` (lines 125-132): `<base>/jobs?q=...`
with optional `l` and, for `start > 0`, a `start` parameter. -/
def buildUrl (baseUrl q l : String) (start : Nat) : Url :=
  let u : Url := { base := baseUrl ++ "/jobs", params := [("q", q)] }
  let u := if l = "" then u else { u with params := u.params ++ [("l", l)] }
  if start > 0 then { u with params := u.params ++ [("start", toString start)] } else u

/-- Result of JS `Number(x)` on an input field: either NaN or a numeric
value (integer-valued numbers suffice for this model). -/
inductive JsNum where
  | nan
  | num (n : Int)
deriving DecidableEq, Repr

/-- JS `Number(field) || d`: an absent field gives `Number(undefined) = NaN`;
NaN and 0 are falsy, so both fall back to the default `d`. -/
def numOrDefault (v : Option JsNum) (d : Int) : Int :=
  match v with
  | none => d
  | some .nan => d
  | some (.num n) => if n = 0 then d else n

/-- Line 51: `const maxItems = Number(input.maxItems) || 1000`. -/
def effectiveMaxItems (v : Option JsNum) : Int := numOrDefault v 1000

/-- Line 53: `const maxConcurrency = Number(input.maxConcurrency) || 10`. -/
def effectiveMaxConcurrency (v : Option JsNum) : Int := numOrDefault v 10

/-- Table `GLOBAL_REGIONS` from `src/main.ts` (lines 70-100): the enumerated
sub-region lists per country code. -/
def GLOBAL_REGIONS (country : String) : List String :=
  if country = "US" then
    ["AL", "AK", "AZ", "AR", "CA", "CO", "CT", "DE", "FL", "GA",
     "HI", "ID", "IL", "IN", "IA", "KS", "KY", "LA", "ME", "MD",
     "MA", "MI", "MN", "MS", "MO", "MT", "NE", "NV", "NH", "NJ",
     "NM", "NY", "NC", "ND", "OH", "OK", "OR", "PA", "RI", "SC",
     "SD", "TN", "TX", "UT", "VT", "VA", "WA", "WV", "WI", "WY"]
  else if country = "IN" then
    ["Mumbai", "Delhi", "Bangalore", "Hyderabad", "Chennai", "Kolkata", "Pune", "Ahmedabad",
     "Surat", "Jaipur", "Lucknow", "Kanpur", "Nagpur", "Indore", "Bhopal", "Visakhapatnam",
     "Maharashtra", "Karnataka", "Tamil Nadu", "Telangana", "Gujarat", "Rajasthan",
     "Uttar Pradesh", "West Bengal", "Madhya Pradesh", "Andhra Pradesh"]
  else if country = "GB" ∨ country = "UK" then
    ["London", "Manchester", "Birmingham", "Leeds", "Glasgow", "Liverpool",
     "Edinburgh", "Bristol", "Sheffield", "Newcastle", "Nottingham", "Southampton"]
  else if country = "CA" then
    ["Ontario", "Quebec", "British Columbia", "Alberta", "Manitoba", "Saskatchewan",
     "Nova Scotia", "Toronto", "Vancouver", "Montreal", "Calgary", "Ottawa"]
  else if country = "AU" then
    ["New South Wales", "Victoria", "Queensland", "Western Australia", "South Australia",
     "Sydney", "Melbourne", "Brisbane", "Perth", "Adelaide"]
  else []

/-- A seed request as produced at seeding time (`label: 'START', page: 0`). -/
structure SeedRequest where
  url : Url
  label : String
  page : Nat
  startUrl : Url
  sessionKey : String
  q : String
  l : String
deriving DecidableEq, Repr

/-- Function `enqueueSearch` from `src/main.ts` (lines 135-145): builds the page-0
URL and adds exactly one request with session key `search-<q>-<l>`.
The requests it adds to the queue are returned as a list. -/
def enqueueSearch (baseUrl q l : String) : List SeedRequest :=
  [{ url := buildUrl baseUrl q l 0
   , label := "START"
   , page := 0
   , startUrl := buildUrl baseUrl q l 0
   , sessionKey := "search-" ++ q ++ "-" ++ l
   , q := q
   , l := l }]

/-- The mutable run-wide state shared by all handler invocations:
the dedup ledger `seenKeys` (a set, modelled as a list up to membership)
and the global accepted-record counter `totalSavedItems`. -/
structure RunState where
  seenKeys : List String
  totalSavedItems : Nat
deriving DecidableEq, Repr

/-- Configuration the handler closes over: the effective result cap and
the country-derived base URL. -/
structure Config where
  maxItems : Nat
  baseUrl : String
deriving DecidableEq, Repr

/-- One entry of the mosaic-JSON jobs array, restricted to the fields the
handler reads (lines 387-408). String fields use `""` for an
absent/falsy value, matching JS `||` chains. -/
structure MosaicJob where
  jobkey : String
  jk : String
  jobKeyAlt : String
  title : String
  displayTitle : String
  company : String
  companyName : String
  formattedLocation : String
  location : String
  estimatedSalary : String
  salarySnippetText : String
  companyRating : Option Int
  companyReviewCount : Option Int
deriving DecidableEq, Repr

/-- One `.job_seen_beacon` card, restricted to the texts and attribute
the HTML extraction reads (lines 458-471). `rawLink = ""` models a
missing `h2.jobTitle a` href (`attr('href') || ''`). -/
structure Card where
  rawLink : String
  titleSpan : String
  titleAll : String
  company : String
  location : String
  salary : String
deriving DecidableEq, Repr

/-- A record as pushed to the output dataset. HTML-path records carry no
`source` or rating fields (modelled as `none`). -/
structure JobRecord where
  jobKey : String
  title : String
  company : String
  location : String
  salary : Option String
  link : String
  companyRating : Option Int
  companyReviewCount : Option Int
  pageNumber : Nat
  source : Option String
deriving DecidableEq, Repr

/-- Line 389: `job.jobkey || job.jk || job.jobKey`. -/
def mosaicKey (j : MosaicJob) : String := jsOr (jsOr j.jobkey j.jk) j.jobKeyAlt

/-- The record pushed by the mosaic-JSON path (lines 396-408), including
the `Unknown ...` fallbacks of its field alias chains. -/
def mosaicRecordOf (baseUrl : String) (pageNum : Nat) (key : String) (j : MosaicJob) : JobRecord :=
  { jobKey := key
  , title := jsOr (jsOr j.title j.displayTitle) "Unknown Title"
  , company := jsOr (jsOr j.company j.companyName) "Unknown Company"
  , location := jsOr (jsOr j.formattedLocation j.location) "Unknown Location"
  , salary := jsOrNull (jsOr j.estimatedSalary j.salarySnippetText)
  , link := baseUrl ++ "/viewjob?jk=" ++ key
  , companyRating := ratingOrNull j.companyRating
  , companyReviewCount := ratingOrNull j.companyReviewCount
  , pageNumber := pageNum + 1
  , source := some "mosaic_json" }

/-- Line 462: `rawLink.startsWith('http') ? rawLink : baseUrl + rawLink`. -/
def fullLinkOf (baseUrl rawLink : String) : String :=
  if strStarts rawLink "http" then rawLink else baseUrl ++ rawLink

/-- Line 463: `fullLink.match(/jk=([a-zA-Z0-9]+)/)?.[1] || fullLink`:
the dedup key of an HTML card. -/
def htmlKeyOf (baseUrl rawLink : String) : String :=
  let full := fullLinkOf baseUrl rawLink
  match jkCapture full.toList with
  | some run => String.mk run
  | none => full

/-- The record pushed by the HTML path (lines 477-487): raw trimmed texts,
with no fallback defaults for title/company. -/
def htmlRecordOf (pageNum : Nat) (key full : String) (c : Card) : JobRecord :=
  { jobKey := key
  , title := jsOr c.titleSpan c.titleAll
  , company := c.company
  , location := c.location
  , salary := jsOrNull c.salary
  , link := full
  , companyRating := none
  , companyReviewCount := none
  , pageNumber := pageNum + 1
  , source := none }

/-- The extraction-loop state: run state plus the per-page
`newJobsOnPage` counter and the shared `results` array. -/
structure EState where
  st : RunState
  newJobs : Nat
  results : List JobRecord
deriving DecidableEq, Repr

/-- The mosaic-JSON extraction loop (lines 387-440): per candidate, break
at the cap, skip a missing or already-seen key, otherwise insert the key
into the ledger and increment both counters together with the push. -/
def extractMosaic (maxItems : Nat) (baseUrl : String) (pageNum : Nat) :
    List MosaicJob → EState → EState
  | [], e => e
  | j :: rest, e =>
    if maxItems ≤ e.st.totalSavedItems then e
    else if mosaicKey j = "" ∨ mosaicKey j ∈ e.st.seenKeys then
      extractMosaic maxItems baseUrl pageNum rest e
    else
      extractMosaic maxItems baseUrl pageNum rest
        { st := ⟨mosaicKey j :: e.st.seenKeys, e.st.totalSavedItems + 1⟩
        , newJobs := e.newJobs + 1
        , results := e.results ++ [mosaicRecordOf baseUrl pageNum (mosaicKey j) j] }

/-- The HTML extraction loop (lines 454-530): per card, break at the cap,
skip a card with no link or an already-seen key, otherwise insert the key
into the ledger and increment both counters together with the push. -/
def extractHtml (maxItems : Nat) (baseUrl : String) (pageNum : Nat) :
    List Card → EState → EState
  | [], e => e
  | c :: rest, e =>
    if maxItems ≤ e.st.totalSavedItems then e
    else if c.rawLink = "" then extractHtml maxItems baseUrl pageNum rest e
    else if htmlKeyOf baseUrl c.rawLink ∈ e.st.seenKeys then
      extractHtml maxItems baseUrl pageNum rest e
    else
      extractHtml maxItems baseUrl pageNum rest
        { st := ⟨htmlKeyOf baseUrl c.rawLink :: e.st.seenKeys, e.st.totalSavedItems + 1⟩
        , newJobs := e.newJobs + 1
        , results := e.results
            ++ [htmlRecordOf pageNum (htmlKeyOf baseUrl c.rawLink) (fullLinkOf baseUrl c.rawLink) c] }

/-- Everything the handler reads from one fetched list page and its
request metadata. `url` is `request.loadedUrl || request.url`;
`noResultsElem` is `$('.no_results_yield').length > 0`; `htmlCards` are
the `.job_seen_beacon` elements; `mosaicJobs` is the jobs array recovered
by the embedded-script scan (lines 351-450), `[]` when no script matched. -/
structure PageInput where
  bodyText : String
  title : String
  url : String
  noResultsElem : Bool
  htmlCards : List Card
  mosaicJobs : List MosaicJob
  pageNum : Nat
  duplicateCount : Nat
  emptyPageCount : Nat
  startUrl : Url
  sessionKey : String
  q : String
  l : String
deriving DecidableEq, Repr

/-- The `isBlocked` classification (lines 312-321): the enumerated
block-indicator substrings over body and title, plus the URL patterns. -/
def pageBlocked (p : PageInput) : Bool :=
  strIncludes p.bodyText "create an account or sign in" ||
  strIncludes p.bodyText "To see more than one page of jobs" ||
  strIncludes p.bodyText "Access to this page has been denied" ||
  strIncludes p.bodyText "while we verify" ||
  strIncludes p.title "Human Verification" ||
  strIncludes p.title "Just a moment" ||
  strIncludes p.bodyText "pgid=auth" ||
  strIncludes p.bodyText "pgid=captcha" ||
  strIncludes p.url "common/error" ||
  strIncludes p.url "/captcha"

/-- The `noResults` classification (lines 329-331). -/
def pageNoResults (p : PageInput) : Bool :=
  strIncludes p.bodyText "did not match any jobs" ||
  strIncludes p.bodyText "try different keywords" ||
  p.noResultsElem

/-- Outcome of one page's extraction: final state, `newJobsOnPage`,
`totalFoundOnPage`, and the accumulated `results` array. -/
structure ExtractResult where
  st : RunState
  newJobs : Nat
  totalFound : Nat
  results : List JobRecord
deriving DecidableEq, Repr

/-- The two-strategy extraction of the handler (lines 338-531), as the
final `EState`: the mosaic fallback runs only when no HTML cards were
found (line 346); the HTML loop runs only when the mosaic pass accepted
nothing (line 453), continuing on the same state and results array. -/
def pageExtractE (cfg : Config) (p : PageInput) (st : RunState) : EState :=
  let e0 : EState := ⟨st, 0, []⟩
  let e1 := if p.htmlCards.length = 0 then
      extractMosaic cfg.maxItems cfg.baseUrl p.pageNum p.mosaicJobs e0
    else e0
  if e1.newJobs = 0 then
    extractHtml cfg.maxItems cfg.baseUrl p.pageNum p.htmlCards e1
  else e1

/-- Counter `totalFoundOnPage`: the HTML card count (line 343), overwritten by the
mosaic jobs count when no cards were present (line 385). -/
def totalFoundOf (p : PageInput) : Nat :=
  if p.htmlCards.length = 0 then p.mosaicJobs.length else p.htmlCards.length

/-- The two-strategy extraction of the handler together with
`totalFoundOnPage`. -/
def pageExtract (cfg : Config) (p : PageInput) (st : RunState) : ExtractResult :=
  ⟨(pageExtractE cfg p st).st, (pageExtractE cfg p st).newJobs, totalFoundOf p,
    (pageExtractE cfg p st).results⟩

/-- Update of `nextDuplicateCount` (lines 555-561). -/
def nextDupCount (p : PageInput) (e : ExtractResult) : Nat :=
  if 0 < e.totalFound ∧ e.newJobs = 0 then p.duplicateCount + 1
  else if 0 < e.newJobs then 0
  else p.duplicateCount

/-- Value of `emptyPageCount` carried into the next request (lines 563-571,
596): incremented exactly on a non-first page with zero found. -/
def nextEmptyCount (p : PageInput) (e : ExtractResult) : Nat :=
  if e.totalFound = 0 ∧ 0 < p.pageNum then p.emptyPageCount + 1 else p.emptyPageCount

/-- The next-page request enqueued by the pagination block (lines 579-601):
page index + 1, the `start` parameter rewritten to `(page+1)*10` on the
query's `startUrl`, session key / origin query / counters carried forward. -/
structure NextRequest where
  url : Url
  label : String
  page : Nat
  startUrl : Url
  sessionKey : String
  duplicateCount : Nat
  emptyPageCount : Nat
  q : String
  l : String
deriving DecidableEq, Repr

/-- Builds the next-page request exactly as lines 580-600 do. -/
def mkNextRequest (p : PageInput) (dup emptyC : Nat) : NextRequest :=
  { url := setParam p.startUrl "start" (toString ((p.pageNum + 1) * 10))
  , label := "LIST"
  , page := p.pageNum + 1
  , startUrl := p.startUrl
  , sessionKey := p.sessionKey
  , duplicateCount := dup
  , emptyPageCount := emptyC
  , q := p.q
  , l := p.l }

/-- Observable outcome of one handler invocation on a list page.
`blockedErr` and `stealthErr` model `session.retire()` followed by a
thrown error (nothing pushed, nothing enqueued); `emptyStop` is the
early `return` on a no-results page; `done` carries the records pushed
to the dataset and the optionally enqueued next-page request. -/
inductive Outcome where
  | blockedErr (st : RunState)
  | emptyStop (st : RunState)
  | stealthErr (st : RunState)
  | done (results : List JobRecord) (st : RunState) (next : Option NextRequest)
deriving DecidableEq, Repr

/-- The run state after the handler invocation. -/
def outcomeState : Outcome → RunState
  | .blockedErr s => s
  | .emptyStop s => s
  | .stealthErr s => s
  | .done _ s _ => s

/-- The records actually pushed to the dataset by the invocation
(`Dataset.pushData` at line 547 is only reached on the `done` path). -/
def outcomeRecords : Outcome → List JobRecord
  | .done r _ _ => r
  | _ => []

/-- Whether the invocation retired its session. -/
def retiresSession : Outcome → Bool
  | .blockedErr _ => true
  | .stealthErr _ => true
  | _ => false

/-- Whether the invocation threw (a retryable failure for the crawler). -/
def raisesError : Outcome → Bool
  | .blockedErr _ => true
  | .stealthErr _ => true
  | _ => false

/-- The next-page request enqueued by the invocation, if any. -/
def enqueuesNext : Outcome → Option NextRequest
  | .done _ _ n => n
  | _ => none

/-- The handler's list-page path (lines 307-602), in source order:
block detection, no-results early return, two-strategy extraction,
stealth-block escalation, duplicate/empty counter rules, and the
pagination condition. -/
def handleListPage (cfg : Config) (p : PageInput) (st : RunState) : Outcome :=
  if pageBlocked p then .blockedErr st
  else if pageNoResults p then .emptyStop st
  else if (pageExtract cfg p st).newJobs = 0 ∧ 0 < p.pageNum
          ∧ p.htmlCards.length = 0 then
    .stealthErr (pageExtract cfg p st).st
  else if (pageExtract cfg p st).totalFound = 0 ∧ 0 < p.pageNum
          ∧ 3 ≤ p.emptyPageCount + 1 then
    .done (pageExtract cfg p st).results (pageExtract cfg p st).st none
  else if 10 ≤ nextDupCount p (pageExtract cfg p st) then
    .done (pageExtract cfg p st).results (pageExtract cfg p st).st none
  else if (pageExtract cfg p st).st.totalSavedItems < cfg.maxItems
          ∧ (0 < (pageExtract cfg p st).totalFound ∨ p.pageNum < 5)
          ∧ p.pageNum < 100 then
    .done (pageExtract cfg p st).results (pageExtract cfg p st).st
      (some (mkNextRequest p (nextDupCount p (pageExtract cfg p st))
        (nextEmptyCount p (pageExtract cfg p st))))
  else .done (pageExtract cfg p st).results (pageExtract cfg p st).st none

/-- A run: the sequence of handler invocations the orchestrator performs,
threading the shared state; the emitted records of the run are the
concatenation of each invocation's pushed records. -/
def runPages (cfg : Config) : List PageInput → RunState → RunState × List JobRecord
  | [], st => (st, [])
  | p :: rest, st =>
    let o := handleListPage cfg p st
    let r := runPages cfg rest (outcomeState o)
    (r.1, outcomeRecords o ++ r.2)

/-- The dedup keys of a record list. -/
def keysOf (l : List JobRecord) : List String := l.map (fun r => r.jobKey)

/-- The ledger only ever grows (keys are never removed). -/
def LedgerExtends (s s' : RunState) : Prop :=
  ∀ k, k ∈ s.seenKeys → k ∈ s'.seenKeys

/-! Concrete fixtures used by witnesses and counterexamples. -/

/-- A small cap configuration on the US domain. -/
def cfgW : Config := ⟨5, "https://www.indeed.com"⟩

/-- The empty initial run state (fresh ledger). -/
def stW : RunState := ⟨[], 0⟩

/-- Seed URL of the fixture query. -/
def startUrlW : Url := buildUrl "https://www.indeed.com" "developer" "" 0

/-- A well-formed result card with key `abc123`. -/
def cardW : Card :=
  { rawLink := "/rc/clk?jk=abc123"
  , titleSpan := "Engineer"
  , titleAll := "Engineer"
  , company := "Acme"
  , location := "NYC"
  , salary := "" }

/-- A result card with absent title and company texts (key `zzz999`). -/
def cardNoTitleW : Card :=
  { rawLink := "/rc/clk?jk=zzz999"
  , titleSpan := ""
  , titleAll := ""
  , company := ""
  , location := ""
  , salary := "" }

/-- A mosaic-JSON job entry with the given `jobkey` and no other data. -/
def mosaicJobOf (k : String) : MosaicJob :=
  { jobkey := k
  , jk := ""
  , jobKeyAlt := ""
  , title := ""
  , displayTitle := ""
  , company := ""
  , companyName := ""
  , formattedLocation := ""
  , location := ""
  , estimatedSalary := ""
  , salarySnippetText := ""
  , companyRating := none
  , companyReviewCount := none }

/-- A benign list page (no block markers, no results markers), page 0 of
the fixture query. -/
def basePageW : PageInput :=
  { bodyText := "some results"
  , title := "Jobs"
  , url := "https://www.indeed.com/jobs?q=developer"
  , noResultsElem := false
  , htmlCards := []
  , mosaicJobs := []
  , pageNum := 0
  , duplicateCount := 0
  , emptyPageCount := 0
  , startUrl := startUrlW
  , sessionKey := "search-developer-"
  , q := "developer"
  , l := "" }

/-- Page 0 with one fresh card: the pagination fixture. -/
def pageC3W : PageInput := { basePageW with htmlCards := [cardW] }

/-- A two-record cap for the cap-invariant witness. -/
def cfgCapW : Config := ⟨2, "https://www.indeed.com"⟩

/-- One page offering three fresh mosaic candidates (more than the cap). -/
def pagesCapW : List PageInput :=
  [{ basePageW with mosaicJobs := [mosaicJobOf "m1", mosaicJobOf "m2", mosaicJobOf "m3"] }]

/-- Page 3 of a query that has already seen 9 consecutive duplicate pages;
its only card's key is already in the ledger. -/
def pageDupW : PageInput :=
  { basePageW with htmlCards := [cardW], pageNum := 3, duplicateCount := 9 }

/-- Ledger already holding the fixture card's key. -/
def stDupW : RunState := ⟨["abc123"], 3⟩

/-- Page 1 whose body matches the no-results indicator. -/
def pageEmptyW : PageInput :=
  { basePageW with bodyText := "Your search did not match any jobs", pageNum := 1 }

/-- Page 0 holding only the card with absent title/company texts. -/
def pageNoTitleW : PageInput := { basePageW with htmlCards := [cardNoTitleW] }

/-- A page whose body matches a block indicator. -/
def pageBlockedW : PageInput :=
  { basePageW with bodyText := "Access to this page has been denied" }

/-- Page 1 from which neither strategy finds anything. -/
def pageStealthW : PageInput := { basePageW with pageNum := 1 }

/-- Invariant relating an extraction-loop state to a later one: the newly
pushed records have pairwise-distinct keys, each is inserted into the
ledger, none was in the ledger before, the ledger only grows, the
`newJobsOnPage` and `totalSavedItems` counters advance exactly by the
number of pushed records, and the cap is preserved. -/
def StepInv (mi : Nat) (e e' : EState) : Prop :=
  ∃ new, e'.results = e.results ++ new
    ∧ (keysOf new).Nodup
    ∧ (∀ r ∈ new, r.jobKey ∈ e'.st.seenKeys)
    ∧ (∀ r ∈ new, r.jobKey ∉ e.st.seenKeys)
    ∧ LedgerExtends e.st e'.st
    ∧ e'.newJobs = e.newJobs + new.length
    ∧ e'.st.totalSavedItems = e.st.totalSavedItems + new.length
    ∧ (new = [] → e'.st = e.st)
    ∧ (e.st.totalSavedItems ≤ mi → e'.st.totalSavedItems ≤ mi)

/-- Invariant of one handler invocation (and, by composition, of a whole
run): pushed records have nodup keys, all inserted into the ledger, none
previously present, the ledger grows, the counter advances by the number
of pushed records, and the cap is preserved. -/
def HandleInv (cfg : Config) (st : RunState) (recs : List JobRecord)
    (st' : RunState) : Prop :=
  (keysOf recs).Nodup
  ∧ (∀ r ∈ recs, r.jobKey ∈ st'.seenKeys)
  ∧ (∀ r ∈ recs, r.jobKey ∉ st.seenKeys)
  ∧ LedgerExtends st st'
  ∧ st'.totalSavedItems = st.totalSavedItems + recs.length
  ∧ (st.totalSavedItems ≤ cfg.maxItems → st'.totalSavedItems ≤ cfg.maxItems)

theorem StepInv.refl (mi : Nat) (e : EState) : StepInv mi e e :=
  ⟨[], by simp, by simp [keysOf], by simp, by simp,
    fun _ h => h, by simp, by simp, fun _ => rfl, fun h => h⟩

theorem mosaicRecordOf_jobKey (b : String) (pn : Nat) (k : String) (j : MosaicJob) :
    (mosaicRecordOf b pn k j).jobKey = k := rfl

theorem htmlRecordOf_jobKey (pn : Nat) (k f : String) (c : Card) :
    (htmlRecordOf pn k f c).jobKey = k := rfl

/-- Keys of two record batches concatenate to a nodup list when the first
batch is inside some intermediate ledger and the second avoids it. -/
theorem keys_nodup_append {r₁ r₂ : List JobRecord} {mid : RunState}
    (h₁ : (keysOf r₁).Nodup) (h₂ : (keysOf r₂).Nodup)
    (hin : ∀ r ∈ r₁, r.jobKey ∈ mid.seenKeys)
    (hout : ∀ r ∈ r₂, r.jobKey ∉ mid.seenKeys) :
    (keysOf (r₁ ++ r₂)).Nodup := by
  have hmap : keysOf (r₁ ++ r₂) = keysOf r₁ ++ keysOf r₂ := by
    simp [keysOf]
  rw [hmap, List.nodup_append]
  refine ⟨h₁, h₂, ?_⟩
  intro a ha₁ ha₂
  obtain ⟨x, hx, hkx⟩ := List.mem_map.mp ha₁
  obtain ⟨y, hy, hky⟩ := List.mem_map.mp ha₂
  exact hout y hy (by rw [hky, ← hkx]; exact hin x hx)

theorem StepInv.trans {mi : Nat} {e₁ e₂ e₃ : EState}
    (h₁ : StepInv mi e₁ e₂) (h₂ : StepInv mi e₂ e₃) : StepInv mi e₁ e₃ := by
  obtain ⟨n₁, hr₁, hd₁, hin₁, hout₁, hx₁, hj₁, ht₁, hz₁, hc₁⟩ := h₁
  obtain ⟨n₂, hr₂, hd₂, hin₂, hout₂, hx₂, hj₂, ht₂, hz₂, hc₂⟩ := h₂
  refine ⟨n₁ ++ n₂, ?_, keys_nodup_append hd₁ hd₂ hin₁ hout₂, ?_, ?_,
    fun k hk => hx₂ k (hx₁ k hk), ?_, ?_, ?_, fun h => hc₂ (hc₁ h)⟩
  · rw [hr₂, hr₁, List.append_assoc]
  · intro r hr
    rcases List.mem_append.mp hr with h | h
    · exact hx₂ _ (hin₁ r h)
    · exact hin₂ r h
  · intro r hr
    rcases List.mem_append.mp hr with h | h
    · exact hout₁ r h
    · exact fun hc => hout₂ r h (hx₁ _ hc)
  · rw [hj₂, hj₁, List.length_append]; omega
  · rw [ht₂, ht₁, List.length_append]; omega
  · intro h
    obtain ⟨hn₁, hn₂⟩ := List.append_eq_nil.mp h
    rw [hz₂ hn₂, hz₁ hn₁]

/-- Accepting a single fresh candidate below the cap: insert the key,
bump both counters, push the record. -/
theorem StepInv.accept {mi : Nat} {e : EState} {k : String} {r : JobRecord}
    (hkey : r.jobKey = k) (hmem : k ∉ e.st.seenKeys)
    (hcap : e.st.totalSavedItems < mi) :
    StepInv mi e ⟨⟨k :: e.st.seenKeys, e.st.totalSavedItems + 1⟩,
      e.newJobs + 1, e.results ++ [r]⟩ := by
  refine ⟨[r], rfl, by simp [keysOf], ?_, ?_, ?_, by simp, by simp, by simp, ?_⟩
  · intro r' hr'
    have : r' = r := by simpa using hr'
    subst this
    simp [hkey]
  · intro r' hr'
    have : r' = r := by simpa using hr'
    subst this
    rw [hkey]; exact hmem
  · exact fun k' hk' => List.mem_cons_of_mem _ hk'
  · intro _
    show e.st.totalSavedItems + 1 ≤ mi
    omega

/-- The mosaic extraction loop satisfies the step invariant. -/
theorem extractMosaic_inv (mi : Nat) (b : String) (pn : Nat) :
    ∀ (js : List MosaicJob) (e : EState),
      StepInv mi e (extractMosaic mi b pn js e) := by
  intro js
  induction js with
  | nil => intro e; simp only [extractMosaic]; exact StepInv.refl mi e
  | cons j rest ih =>
    intro e
    simp only [extractMosaic]
    split
    · exact StepInv.refl mi e
    · split
      · exact ih e
      · rename_i hcap hskip
        push_neg at hskip
        exact StepInv.trans
          (StepInv.accept (mosaicRecordOf_jobKey b pn (mosaicKey j) j) hskip.2 (by omega))
          (ih _)

/-- The HTML extraction loop satisfies the step invariant. -/
theorem extractHtml_inv (mi : Nat) (b : String) (pn : Nat) :
    ∀ (cs : List Card) (e : EState),
      StepInv mi e (extractHtml mi b pn cs e) := by
  intro cs
  induction cs with
  | nil => intro e; simp only [extractHtml]; exact StepInv.refl mi e
  | cons c rest ih =>
    intro e
    simp only [extractHtml]
    split
    · exact StepInv.refl mi e
    · split
      · exact ih e
      · split
        · exact ih e
        · rename_i hcap hlink hseen
          exact StepInv.trans
            (StepInv.accept
              (htmlRecordOf_jobKey pn (htmlKeyOf b c.rawLink) (fullLinkOf b c.rawLink) c)
              hseen (by omega))
            (ih _)

/-- The whole two-strategy extraction satisfies the step invariant. -/
theorem pageExtractE_inv (cfg : Config) (p : PageInput) (st : RunState) :
    StepInv cfg.maxItems ⟨st, 0, []⟩ (pageExtractE cfg p st) := by
  have h1 : ∀ e0 : EState, StepInv cfg.maxItems e0
      (if p.htmlCards.length = 0 then
        extractMosaic cfg.maxItems cfg.baseUrl p.pageNum p.mosaicJobs e0
      else e0) := by
    intro e0
    split
    · exact extractMosaic_inv _ _ _ _ _
    · exact StepInv.refl _ _
  have h2 : ∀ e1 : EState, StepInv cfg.maxItems e1
      (if e1.newJobs = 0 then
        extractHtml cfg.maxItems cfg.baseUrl p.pageNum p.htmlCards e1
      else e1) := by
    intro e1
    split
    · exact extractHtml_inv _ _ _ _ _
    · exact StepInv.refl _ _
  exact StepInv.trans (h1 ⟨st, 0, []⟩) (h2 _)

/-- A page with `totalFoundOnPage = 0` had no HTML cards and no mosaic
jobs. -/
theorem totalFound_zero {p : PageInput} (h : totalFoundOf p = 0) :
    p.htmlCards.length = 0 ∧ p.mosaicJobs.length = 0 := by
  unfold totalFoundOf at h
  split at h <;> simp_all

/-- When the extraction accepted nothing, the shared state is untouched
and no records were produced. -/
theorem pageExtract_nj0 (cfg : Config) (p : PageInput) (st : RunState)
    (h : (pageExtract cfg p st).newJobs = 0) :
    (pageExtract cfg p st).st = st ∧ (pageExtract cfg p st).results = [] := by
  obtain ⟨new, hr, _, _, _, _, hj, _, hz, _⟩ := pageExtractE_inv cfg p st
  have hnil : new = [] := by
    have : (pageExtractE cfg p st).newJobs = 0 := h
    rw [hj] at this
    simpa using List.length_eq_zero.mp (by omega)
  subst hnil
  refine ⟨hz rfl, ?_⟩
  show (pageExtractE cfg p st).results = []
  rw [hr]; rfl

theorem HandleInv.nil (cfg : Config) (st : RunState) : HandleInv cfg st [] st :=
  ⟨by simp [keysOf], by simp, by simp, fun _ h => h, by simp, fun h => h⟩

theorem HandleInv.seq {cfg : Config} {st st₁ st₂ : RunState}
    {r₁ r₂ : List JobRecord}
    (h₁ : HandleInv cfg st r₁ st₁) (h₂ : HandleInv cfg st₁ r₂ st₂) :
    HandleInv cfg st (r₁ ++ r₂) st₂ := by
  obtain ⟨hd₁, hin₁, hout₁, hx₁, ht₁, hc₁⟩ := h₁
  obtain ⟨hd₂, hin₂, hout₂, hx₂, ht₂, hc₂⟩ := h₂
  refine ⟨keys_nodup_append hd₁ hd₂ hin₁ hout₂, ?_, ?_,
    fun k hk => hx₂ k (hx₁ k hk), ?_, fun h => hc₂ (hc₁ h)⟩
  · intro r hr
    rcases List.mem_append.mp hr with h | h
    · exact hx₂ _ (hin₁ r h)
    · exact hin₂ r h
  · intro r hr
    rcases List.mem_append.mp hr with h | h
    · exact hout₁ r h
    · exact fun hc => hout₂ r h (hx₁ _ hc)
  · rw [ht₂, ht₁, List.length_append]; omega

/-- The extraction's records and state satisfy the handler invariant. -/
theorem extract_handleInv (cfg : Config) (p : PageInput) (st : RunState) :
    HandleInv cfg st (pageExtract cfg p st).results (pageExtract cfg p st).st := by
  obtain ⟨new, hr, hd, hin, hout, hx, hj, ht, hz, hc⟩ := pageExtractE_inv cfg p st
  have hres : (pageExtract cfg p st).results = new := by
    show (pageExtractE cfg p st).results = new
    rw [hr]; rfl
  refine ⟨?_, ?_, ?_, hx, ?_, hc⟩
  · rw [hres]; exact hd
  · rw [hres]; exact hin
  · rw [hres]; exact hout
  · rw [hres]; exact ht

/-- One handler invocation satisfies the handler invariant, whatever the
outcome. -/
theorem handle_inv (cfg : Config) (p : PageInput) (st : RunState) :
    HandleInv cfg st (outcomeRecords (handleListPage cfg p st))
      (outcomeState (handleListPage cfg p st)) := by
  unfold handleListPage
  split
  · exact HandleInv.nil cfg st
  · split
    · exact HandleInv.nil cfg st
    · split
      · rename_i hcond
        have hst : (pageExtract cfg p st).st = st :=
          (pageExtract_nj0 cfg p st hcond.1).1
        show HandleInv cfg st [] (pageExtract cfg p st).st
        rw [hst]
        exact HandleInv.nil cfg st
      · split
        · exact extract_handleInv cfg p st
        · split
          · exact extract_handleInv cfg p st
          · split
            · exact extract_handleInv cfg p st
            · exact extract_handleInv cfg p st

/-- A whole run satisfies the handler invariant, by composing pages. -/
theorem runPages_inv (cfg : Config) :
    ∀ (pages : List PageInput) (st : RunState),
      HandleInv cfg st (runPages cfg pages st).2 (runPages cfg pages st).1 := by
  intro pages
  induction pages with
  | nil =>
    intro st
    simp only [runPages]
    exact HandleInv.nil cfg st
  | cons p rest ih =>
    intro st
    simp only [runPages]
    exact HandleInv.seq (handle_inv cfg p st)
      (ih (outcomeState (handleListPage cfg p st)))

theorem pageExtract_st (cfg : Config) (p : PageInput) (st : RunState) :
    (pageExtract cfg p st).st = (pageExtractE cfg p st).st := rfl

theorem pageExtract_newJobs (cfg : Config) (p : PageInput) (st : RunState) :
    (pageExtract cfg p st).newJobs = (pageExtractE cfg p st).newJobs := rfl

theorem pageExtract_results (cfg : Config) (p : PageInput) (st : RunState) :
    (pageExtract cfg p st).results = (pageExtractE cfg p st).results := rfl

theorem pageExtract_totalFound (cfg : Config) (p : PageInput) (st : RunState) :
    (pageExtract cfg p st).totalFound = totalFoundOf p := rfl

/-- With no cards and no mosaic jobs both loops are no-ops. -/
theorem pageExtractE_empty (cfg : Config) (p : PageInput) (st : RunState)
    (hc : p.htmlCards = []) (hm : p.mosaicJobs = []) :
    pageExtractE cfg p st = ⟨st, 0, []⟩ := by
  simp [pageExtractE, hc, hm, extractMosaic, extractHtml]

/-- A page matching the no-results indicators returns early. -/
theorem handle_emptyStop (cfg : Config) (p : PageInput) (st : RunState)
    (hb : pageBlocked p = false) (hn : pageNoResults p = true) :
    handleListPage cfg p st = .emptyStop st := by
  unfold handleListPage
  rw [hb, if_neg (by decide), hn, if_pos rfl]

/-- A non-first page where neither strategy found anything hits the
stealth-block escalation, with the shared state untouched. -/
theorem handle_stealth_of_empty (cfg : Config) (p : PageInput) (st : RunState)
    (hb : pageBlocked p = false) (hn : pageNoResults p = false)
    (hz : totalFoundOf p = 0) (hpn : 0 < p.pageNum) :
    handleListPage cfg p st = .stealthErr st := by
  obtain ⟨hc0, hm0⟩ := totalFound_zero hz
  have hc : p.htmlCards = [] := List.length_eq_zero.mp hc0
  have hm : p.mosaicJobs = [] := List.length_eq_zero.mp hm0
  have he : pageExtractE cfg p st = ⟨st, 0, []⟩ := pageExtractE_empty cfg p st hc hm
  unfold handleListPage
  rw [hb, if_neg (by decide), hn, if_neg (by decide)]
  rw [if_pos ⟨by rw [pageExtract_newJobs, he], hpn, hc0⟩, pageExtract_st, he]

/-- Past the block / no-results / stealth / empty-rule gates, the handler
is the duplicate-threshold check followed by the pagination condition. -/
theorem handle_not_early (cfg : Config) (p : PageInput) (st : RunState)
    (hb : pageBlocked p = false) (hn : pageNoResults p = false)
    (hst : ¬((pageExtract cfg p st).newJobs = 0 ∧ 0 < p.pageNum
      ∧ p.htmlCards.length = 0))
    (hemp : ¬((pageExtract cfg p st).totalFound = 0 ∧ 0 < p.pageNum
      ∧ 3 ≤ p.emptyPageCount + 1)) :
    handleListPage cfg p st =
      if 10 ≤ nextDupCount p (pageExtract cfg p st) then
        .done (pageExtract cfg p st).results (pageExtract cfg p st).st none
      else if (pageExtract cfg p st).st.totalSavedItems < cfg.maxItems
              ∧ (0 < (pageExtract cfg p st).totalFound ∨ p.pageNum < 5)
              ∧ p.pageNum < 100 then
        .done (pageExtract cfg p st).results (pageExtract cfg p st).st
          (some (mkNextRequest p (nextDupCount p (pageExtract cfg p st))
            (nextEmptyCount p (pageExtract cfg p st))))
      else .done (pageExtract cfg p st).results (pageExtract cfg p st).st none := by
  unfold handleListPage
  rw [hb, if_neg (by decide), hn, if_neg (by decide), if_neg hst, if_neg hemp]

/-- C1: over any run started on any ledger snapshot, the keys of all
accepted (pushed) records are pairwise distinct and disjoint from the
snapshot: in both extraction paths a candidate whose key is already in
`seenKeys` is skipped before being counted or emitted. -/
theorem dedup_per_run (cfg : Config) (pages : List PageInput)
    (ledger0 : List String) :
    (keysOf (runPages cfg pages ⟨ledger0, 0⟩).2).Nodup
    ∧ List.Disjoint (keysOf (runPages cfg pages ⟨ledger0, 0⟩).2) ledger0 := by
  obtain ⟨hd, _, hout, _, _, _⟩ := runPages_inv cfg pages ⟨ledger0, 0⟩
  refine ⟨hd, ?_⟩
  intro a ha hmem
  obtain ⟨r, hr, hk⟩ := List.mem_map.mp ha
  exact hout r hr (by rw [hk]; exact hmem)

/-- C2: `totalSavedItems` never exceeds `maxItems` over any run, because
the cap is checked before each individual candidate is accepted; moreover
the counter advances exactly by the number of emitted records (each
acceptance inserts the key and increments the counter together). -/
theorem cap_never_exceeded (cfg : Config) (pages : List PageInput)
    (st : RunState) (h : st.totalSavedItems ≤ cfg.maxItems) :
    (runPages cfg pages st).1.totalSavedItems ≤ cfg.maxItems
    ∧ (runPages cfg pages st).1.totalSavedItems
        = st.totalSavedItems + (runPages cfg pages st).2.length := by
  obtain ⟨_, _, _, _, ht, hc⟩ := runPages_inv cfg pages st
  exact ⟨hc h, ht⟩

/-- C2 witness: with cap 2 and three fresh candidates on one page, the
run ends with the counter at the cap, not beyond it. -/
theorem cap_never_exceeded_witness :
    (runPages cfgCapW pagesCapW stW).1.totalSavedItems ≤ cfgCapW.maxItems
    ∧ (runPages cfgCapW pagesCapW stW).1.totalSavedItems
        = stW.totalSavedItems + (runPages cfgCapW pagesCapW stW).2.length :=
  cap_never_exceeded cfgCapW pagesCapW stW (by decide)

/-- C8: a page matching any of the enumerated block indicators (body,
title, or URL patterns) makes the handler retire the session and fail
loudly, extracting no records and enqueuing no next page. -/
theorem blocked_session_retired (cfg : Config) (p : PageInput)
    (st : RunState) (h : pageBlocked p = true) :
    handleListPage cfg p st = .blockedErr st
    ∧ retiresSession (handleListPage cfg p st) = true
    ∧ raisesError (handleListPage cfg p st) = true
    ∧ outcomeRecords (handleListPage cfg p st) = []
    ∧ enqueuesNext (handleListPage cfg p st) = none := by
  have hh : handleListPage cfg p st = .blockedErr st := by
    unfold handleListPage
    rw [h, if_pos rfl]
  exact ⟨hh, by rw [hh]; rfl, by rw [hh]; rfl, by rw [hh]; rfl, by rw [hh]; rfl⟩

/-- C8 witness: a concrete access-denied page is classified blocked and
escalated. -/
theorem blocked_session_retired_witness :
    handleListPage cfgW pageBlockedW stW = .blockedErr stW
    ∧ retiresSession (handleListPage cfgW pageBlockedW stW) = true
    ∧ raisesError (handleListPage cfgW pageBlockedW stW) = true
    ∧ outcomeRecords (handleListPage cfgW pageBlockedW stW) = []
    ∧ enqueuesNext (handleListPage cfgW pageBlockedW stW) = none :=
  blocked_session_retired cfgW pageBlockedW stW (by decide)

/-- C9: a Ready-classified page on index > 0 from which both strategies
yield zero records escalates to a session-retiring failure; on page 0 the
same zero-yield outcome is not escalated. -/
theorem stealth_empty_escalation (cfg : Config) (p : PageInput)
    (st : RunState) (hb : pageBlocked p = false)
    (hn : pageNoResults p = false) (hz : totalFoundOf p = 0) :
    (0 < p.pageNum →
      handleListPage cfg p st = .stealthErr st
      ∧ retiresSession (handleListPage cfg p st) = true
      ∧ raisesError (handleListPage cfg p st) = true
      ∧ outcomeRecords (handleListPage cfg p st) = []
      ∧ enqueuesNext (handleListPage cfg p st) = none)
    ∧ (p.pageNum = 0 →
      raisesError (handleListPage cfg p st) = false
      ∧ retiresSession (handleListPage cfg p st) = false) := by
  constructor
  · intro hpn
    have hh := handle_stealth_of_empty cfg p st hb hn hz hpn
    exact ⟨hh, by rw [hh]; rfl, by rw [hh]; rfl, by rw [hh]; rfl, by rw [hh]; rfl⟩
  · intro h0
    have hdone : ∃ r s n, handleListPage cfg p st = .done r s n := by
      unfold handleListPage
      rw [hb, if_neg (by decide), hn, if_neg (by decide),
        if_neg (by omega), if_neg (by omega)]
      split
      · exact ⟨_, _, _, rfl⟩
      · split
        · exact ⟨_, _, _, rfl⟩
        · exact ⟨_, _, _, rfl⟩
    obtain ⟨r, s, n, hh⟩ := hdone
    rw [hh]
    exact ⟨rfl, rfl⟩

/-- C9 witness: a concrete zero-yield page at index 1 escalates with the
session retired; the handler state is untouched. -/
theorem stealth_empty_escalation_witness :
    handleListPage cfgW pageStealthW stW = .stealthErr stW
    ∧ retiresSession (handleListPage cfgW pageStealthW stW) = true :=
  ⟨((stealth_empty_escalation cfgW pageStealthW stW (by decide) (by decide)
      (by decide)).1 (by decide)).1,
   ((stealth_empty_escalation cfgW pageStealthW stW (by decide) (by decide)
      (by decide)).1 (by decide)).2.1⟩

/-- C10: an absent, non-numeric, or zero `maxItems` yields the effective
cap 1000 (never a zero-cap run); an absent or zero `maxConcurrency`
yields 10. -/
theorem input_defaults :
    effectiveMaxItems none = 1000
    ∧ effectiveMaxItems (some .nan) = 1000
    ∧ effectiveMaxItems (some (.num 0)) = 1000
    ∧ effectiveMaxConcurrency none = 10
    ∧ effectiveMaxConcurrency (some .nan) = 10
    ∧ effectiveMaxConcurrency (some (.num 0)) = 10 :=
  ⟨rfl, rfl, by decide, rfl, rfl, by decide⟩

/-- C5 counterexample: the very first page classified Empty (page 1 of
the fixture query, counter at 0) terminates pagination immediately — the
handler returns early, enqueues nothing, and the consecutive-empty-pages
counter is never consulted or incremented. The claimed behaviour
(continue through empty pages 1 and 2, stop only at the third) would
require a next request to be enqueued here. -/
theorem empty_pages_counterexample :
    handleListPage cfgW pageEmptyW stW = .emptyStop stW
    ∧ enqueuesNext (handleListPage cfgW pageEmptyW stW) = none := by
  exact ⟨by decide, by decide⟩

/-- C5 amended: a page classified Empty (no-results indicators)
terminates the query's pagination immediately on the first such page,
producing no records; the consecutive-empty-pages rule (increment on a
zero-found non-first page, stop at 3) is unreachable, because a
non-Empty page with zero found on a non-first page raises the
stealth-block failure before that rule runs, and on page 0 the rule's
guard is false. -/
theorem empty_page_rule_amended (cfg : Config) (p : PageInput)
    (st : RunState) (hb : pageBlocked p = false) :
    (pageNoResults p = true →
      handleListPage cfg p st = .emptyStop st
      ∧ enqueuesNext (handleListPage cfg p st) = none
      ∧ outcomeRecords (handleListPage cfg p st) = [])
    ∧ (pageNoResults p = false → totalFoundOf p = 0 → 0 < p.pageNum →
      handleListPage cfg p st = .stealthErr st) := by
  constructor
  · intro hn
    have hh := handle_emptyStop cfg p st hb hn
    exact ⟨hh, by rw [hh]; rfl, by rw [hh]; rfl⟩
  · intro hn hz hpn
    exact handle_stealth_of_empty cfg p st hb hn hz hpn

/-- C5 amended witness: the concrete Empty page stops immediately with
nothing enqueued and nothing pushed. -/
theorem empty_page_rule_amended_witness :
    handleListPage cfgW pageEmptyW stW = .emptyStop stW
    ∧ enqueuesNext (handleListPage cfgW pageEmptyW stW) = none
    ∧ outcomeRecords (handleListPage cfgW pageEmptyW stW) = [] :=
  (empty_page_rule_amended cfgW pageEmptyW stW (by decide)).1 (by decide)

/-- C6 counterexample: under the claim's fan-out conditions (US country
with its 50 enumerated sub-regions, remote-style location hint, any cap)
the seeding emits exactly one request, not one per sub-region in
addition to the original. -/
theorem fanout_counterexample :
    (enqueueSearch "https://www.indeed.com" "developer" "Remote").length = 1
    ∧ (GLOBAL_REGIONS "US").length = 50
    ∧ (enqueueSearch "https://www.indeed.com" "developer" "Remote").length
        ≠ 1 + (GLOBAL_REGIONS "US").length := by
  exact ⟨rfl, by decide, by decide⟩

/-- C6 amended: regardless of country, location hint, or configured cap,
each query/location pair yields exactly one seed Request (page 0, session
key `search-<q>-<l>`); the enumerated sub-region lists exist in the code
but are never consulted, so no fan-out expansion occurs. -/
theorem fanout_amended (baseUrl q l : String) :
    (enqueueSearch baseUrl q l).length = 1
    ∧ (enqueueSearch baseUrl q l).map (fun r => r.sessionKey)
        = ["search-" ++ q ++ "-" ++ l]
    ∧ (enqueueSearch baseUrl q l).map (fun r => r.page) = [0] :=
  ⟨rfl, rfl, rfl⟩

/-- C7 counterexample: a markup card with absent title and company texts
is accepted (one record, keyed by its link), and its record carries the
empty strings — no `Unknown`-style substitution happens on the markup
path. -/
theorem unknown_default_counterexample :
    keysOf (pageExtract cfgW pageNoTitleW stW).results = ["zzz999"]
    ∧ (pageExtract cfgW pageNoTitleW stW).results.map (fun r => r.title) = [""]
    ∧ (pageExtract cfgW pageNoTitleW stW).results.map (fun r => r.company)
        = [""] := by
  exact ⟨by decide, by decide, by decide⟩

/-- C7 amended: the `Unknown Title` / `Unknown Company` /
`Unknown Location` defaults belong to the data-blob (mosaic JSON) path
only; the markup path copies the raw card texts into the record without
substitution (an absent link, not an absent title, is what rejects a
card). -/
theorem unknown_defaults_amended (b : String) (pn : Nat) (k f : String)
    (j : MosaicJob) (c : Card) :
    (j.title = "" → j.displayTitle = "" →
      (mosaicRecordOf b pn k j).title = "Unknown Title")
    ∧ (j.company = "" → j.companyName = "" →
      (mosaicRecordOf b pn k j).company = "Unknown Company")
    ∧ (j.formattedLocation = "" → j.location = "" →
      (mosaicRecordOf b pn k j).location = "Unknown Location")
    ∧ (htmlRecordOf pn k f c).title = jsOr c.titleSpan c.titleAll
    ∧ (htmlRecordOf pn k f c).company = c.company := by
  refine ⟨?_, ?_, ?_, rfl, rfl⟩
  · intro h1 h2
    simp [mosaicRecordOf, jsOr, h1, h2]
  · intro h1 h2
    simp [mosaicRecordOf, jsOr, h1, h2]
  · intro h1 h2
    simp [mosaicRecordOf, jsOr, h1, h2]

/-- C7 amended witness: a mosaic job with no title data gets the default;
the all-empty markup card's record keeps the empty title. -/
theorem unknown_defaults_amended_witness :
    (mosaicRecordOf "https://www.indeed.com" 0 "m1" (mosaicJobOf "m1")).title
      = "Unknown Title"
    ∧ (htmlRecordOf 0 "zzz999" "f" cardNoTitleW).title
      = jsOr cardNoTitleW.titleSpan cardNoTitleW.titleAll :=
  ⟨(unknown_defaults_amended "https://www.indeed.com" 0 "m1" "f"
      (mosaicJobOf "m1") cardNoTitleW).1 rfl rfl,
   (unknown_defaults_amended "https://www.indeed.com" 0 "zzz999" "f"
      (mosaicJobOf "m1") cardNoTitleW).2.2.2.1⟩

/-- C3: on a page where no terminating rule fires, a next-page request is
enqueued iff the counter is below the cap AND (something was found OR the
page index is below 5) AND the index is below 100; the enqueued request
is at index + 1 with the `start` parameter rewritten to `(index+1)*10` on
the same base URL, carrying forward the session key, origin query, and
updated counters. -/
theorem pagination_enqueue_iff (cfg : Config) (p : PageInput)
    (st : RunState) (hb : pageBlocked p = false)
    (hn : pageNoResults p = false)
    (hst : ¬((pageExtract cfg p st).newJobs = 0 ∧ 0 < p.pageNum
      ∧ p.htmlCards.length = 0))
    (hemp : ¬((pageExtract cfg p st).totalFound = 0 ∧ 0 < p.pageNum
      ∧ 3 ≤ p.emptyPageCount + 1))
    (hdup : nextDupCount p (pageExtract cfg p st) < 10) :
    ((enqueuesNext (handleListPage cfg p st)).isSome = true ↔
      ((pageExtract cfg p st).st.totalSavedItems < cfg.maxItems
        ∧ (0 < (pageExtract cfg p st).totalFound ∨ p.pageNum < 5)
        ∧ p.pageNum < 100))
    ∧ (∀ nxt, enqueuesNext (handleListPage cfg p st) = some nxt →
        nxt = mkNextRequest p (nextDupCount p (pageExtract cfg p st))
          (nextEmptyCount p (pageExtract cfg p st))
        ∧ nxt.page = p.pageNum + 1
        ∧ nxt.url = setParam p.startUrl "start" (toString ((p.pageNum + 1) * 10))
        ∧ nxt.startUrl = p.startUrl
        ∧ nxt.sessionKey = p.sessionKey
        ∧ nxt.q = p.q
        ∧ nxt.l = p.l
        ∧ nxt.duplicateCount = nextDupCount p (pageExtract cfg p st)
        ∧ nxt.emptyPageCount = nextEmptyCount p (pageExtract cfg p st)) := by
  have hs := handle_not_early cfg p st hb hn hst hemp
  rw [if_neg (by omega)] at hs
  constructor
  · rw [hs]
    split
    · rename_i hcond
      exact iff_of_true rfl hcond
    · rename_i hcond
      exact iff_of_false (by simp [enqueuesNext]) hcond
  · intro nxt hnx
    rw [hs] at hnx
    split at hnx
    · simp only [enqueuesNext, Option.some.injEq] at hnx
      subst hnx
      exact ⟨rfl, rfl, rfl, rfl, rfl, rfl, rfl, rfl, rfl⟩
    · simp [enqueuesNext] at hnx

/-- C3 witness: the fixture page 0 with one fresh card does enqueue the
next page. -/
theorem pagination_enqueue_iff_witness :
    (enqueuesNext (handleListPage cfgW pageC3W stW)).isSome = true :=
  (pagination_enqueue_iff cfgW pageC3W stW (by decide) (by decide)
    (by decide) (by decide) (by decide)).1.mpr (by decide)

/-- C4: the duplicate-pages counter is incremented exactly on a page with
`totalFoundOnPage > 0` and `newRecordsOnPage = 0`, reset on a page with
new records, otherwise unchanged; a markup page of pure duplicates after
9 prior such pages terminates pagination (the 10th consecutive duplicate
page enqueues nothing), and below that threshold such a page enqueues the
next request carrying the incremented counter. -/
theorem duplicate_pages_rule (cfg : Config) (p : PageInput)
    (st : RunState) (hb : pageBlocked p = false)
    (hn : pageNoResults p = false) :
    (0 < (pageExtract cfg p st).totalFound →
      (pageExtract cfg p st).newJobs = 0 →
      nextDupCount p (pageExtract cfg p st) = p.duplicateCount + 1)
    ∧ (0 < (pageExtract cfg p st).newJobs →
      nextDupCount p (pageExtract cfg p st) = 0)
    ∧ ((pageExtract cfg p st).totalFound = 0 →
      (pageExtract cfg p st).newJobs = 0 →
      nextDupCount p (pageExtract cfg p st) = p.duplicateCount)
    ∧ (0 < (pageExtract cfg p st).totalFound →
      (pageExtract cfg p st).newJobs = 0 →
      0 < p.htmlCards.length → 9 ≤ p.duplicateCount →
      handleListPage cfg p st
        = .done (pageExtract cfg p st).results (pageExtract cfg p st).st none)
    ∧ (0 < (pageExtract cfg p st).totalFound →
      (pageExtract cfg p st).newJobs = 0 →
      0 < p.htmlCards.length → p.duplicateCount < 9 →
      (pageExtract cfg p st).st.totalSavedItems < cfg.maxItems →
      p.pageNum < 100 →
      enqueuesNext (handleListPage cfg p st)
        = some (mkNextRequest p (p.duplicateCount + 1) p.emptyPageCount)) := by
  refine ⟨?_, ?_, ?_, ?_, ?_⟩
  · intro h1 h2
    simp only [nextDupCount]
    rw [if_pos ⟨h1, h2⟩]
  · intro h
    simp only [nextDupCount]
    rw [if_neg (by omega), if_pos h]
  · intro h1 h2
    simp only [nextDupCount]
    rw [if_neg (by omega), if_neg (by omega)]
  · intro h1 h2 hcards hd9
    have hnd : nextDupCount p (pageExtract cfg p st) = p.duplicateCount + 1 := by
      simp only [nextDupCount]
      rw [if_pos ⟨h1, h2⟩]
    have hs := handle_not_early cfg p st hb hn (by omega) (by omega)
    rw [hs, if_pos (by omega)]
  · intro h1 h2 hcards hd9 hcap hpage
    have hnd : nextDupCount p (pageExtract cfg p st) = p.duplicateCount + 1 := by
      simp only [nextDupCount]
      rw [if_pos ⟨h1, h2⟩]
    have hne : nextEmptyCount p (pageExtract cfg p st) = p.emptyPageCount := by
      simp only [nextEmptyCount]
      rw [if_neg (by omega)]
    have hs := handle_not_early cfg p st hb hn (by omega) (by omega)
    rw [hs, if_neg (by omega), if_pos ⟨hcap, Or.inl h1, hpage⟩]
    simp only [enqueuesNext, hnd, hne]

/-- C4 witness: page 3 of the fixture query with one already-seen card
and 9 prior consecutive duplicate pages terminates — records pushed this
page are none and nothing is enqueued. -/
theorem duplicate_pages_rule_witness :
    handleListPage cfgW pageDupW stDupW
      = .done (pageExtract cfgW pageDupW stDupW).results
          (pageExtract cfgW pageDupW stDupW).st none :=
  (duplicate_pages_rule cfgW pageDupW stDupW (by decide) (by decide)).2.2.2.1
    (by decide) (by decide) (by decide) (by decide)

end IndeedScraper
